import Mathlib

/-
Shallow embedding of src/core/ConnectionRegistry.js (class ConnectionRegistry).

The registry owns four JS Maps (connectionsByAuth, messageQueues,
reconnectGraceTimers, reconnectingAccounts), registers per-connection event
handlers, and runs grace-period timers whose callbacks may suspend at an
await of an external recovery callback.  We model:

  - each JS Map as an association list with helper operations mGet / mSet /
    mDel (mSet replaces the binding in place, so a key is bound at most once
    when the list was built by mSet / mDel, exactly as in a JS Map);
  - queue objects by reference: messageQueues maps a request id to a
    QueueRef, and queueArena maps each QueueRef to the current MessageQueue
    value, mirroring the fact that JS map entries are references and a
    consumer holding the reference observes close even after the map entry
    is deleted;
  - the event loop by explicit pending sets: pendingTimers holds the
    scheduled grace timers (setTimeout ids with the captured authIndex) that
    have neither fired nor been cancelled; pendingRecovery holds grace
    callbacks that are suspended at the await of the recovery callback
    (between line 175 and the finally block of the source).  Firing a timer
    and completing a suspended recovery are separate atomic steps, matching
    single-threaded cooperative scheduling where an await is the only
    suspension point;
  - per-websocket mutable data (attached handler sets, the stamped
    _authIndex, the close code and reason recorded by the first close call)
    in connInfo, keyed by an opaque connection id.
-/

namespace ConnReg

/-- Association-list lookup, modelling JS Map.get (none = undefined). -/
def mGet {κ α : Type} [DecidableEq κ] (k : κ) : List (κ × α) → Option α
  | [] => none
  | (k', v) :: t => if k' = k then some v else mGet k t

/-- Association-list insert-or-replace, modelling JS Map.set. -/
def mSet {κ α : Type} [DecidableEq κ] (k : κ) (v : α) : List (κ × α) → List (κ × α)
  | [] => [(k, v)]
  | (k', v') :: t => if k' = k then (k, v) :: t else (k', v') :: mSet k v t

/-- Association-list removal of every binding of a key, modelling JS Map.delete. -/
def mDel {κ α : Type} [DecidableEq κ] (k : κ) : List (κ × α) → List (κ × α)
  | [] => []
  | (k', v') :: t => if k' = k then mDel k t else (k', v') :: mDel k t

/-- Identifier types: connection handles, timer ids and queue references are
opaque and compared by identity in the source, so plain naturals model them. -/
abbrev ConnId := Nat
abbrev TimerId := Nat
abbrev QueueRef := Nat
abbrev RequestId := String

/-- The value found in clientInfo.authIndex before validation: the JS field
may be undefined, an integer, or a non-integer number. -/
inductive AuthVal : Type
  | undef : AuthVal
  | intVal : Int → AuthVal
  | nonIntVal : AuthVal
  deriving DecidableEq, Repr

/-- The validation at the top of addConnection:
authIndex === undefined || authIndex < 0 || !Number.isInteger(authIndex)
rejects; the accepted values are exactly the non-negative integers. -/
def validateAuth : AuthVal → Option Nat
  | .undef => none
  | .intVal i => if 0 ≤ i then some i.toNat else none
  | .nonIntVal => none

/-- A parsed inbound frame: request_id may be absent (undefined on the JS
object), event_type is a string, and data stands for the remaining
event-specific fields, carried verbatim. -/
structure ParsedMsg where
  requestId : Option String
  eventType : String
  data : String
  deriving DecidableEq, Repr

/-- An entry of a message queue: either a frame enqueued verbatim by
_routeMessage, or the terminal sentinel object, source literal
queue.enqueue(\x7b type: "STREAM_END" \x7d). -/
inductive QueueItem : Type
  | msg : ParsedMsg → QueueItem
  | streamEnd : QueueItem
  deriving DecidableEq, Repr

/-- Modelled from the spec: the MessageQueue class (src/utils/MessageQueue)
is not part of the sources given; its contract is specified: FIFO order,
enqueue never blocks and never drops while open, enqueue after close is a
silent no-op, close is idempotent. -/
structure MessageQueue where
  items : List QueueItem
  closed : Bool
  deriving DecidableEq, Repr

/-- Modelled from the spec: enqueue appends while open and is a silent no-op
after close. -/
def MessageQueue.enq (q : MessageQueue) (i : QueueItem) : MessageQueue :=
  if q.closed then q else { q with items := q.items ++ [i] }

/-- Modelled from the spec: close is idempotent and terminal. -/
def MessageQueue.doClose (q : MessageQueue) : MessageQueue :=
  { q with closed := true }

/-- Per-connection mutable data held on the websocket object: the number of
attached handler sets (one per .on("message")/.on("close")/.on("error")
registration group of addConnection; removeAllListeners resets it to zero),
the close code and reason recorded by the first close(...) call, and the
_authIndex stamped at registration. -/
structure ConnInfo where
  listeners : Nat
  closedWith : Option (Nat × String)
  authStamp : Option Nat
  deriving DecidableEq, Repr

def ConnInfo.default : ConnInfo := ⟨0, none, none⟩

/-- Fixed configuration of a registry instance: whether an
onConnectionLostCallback was supplied at construction. -/
structure Cfg where
  hasCallback : Bool
  deriving DecidableEq, Repr

/-- The full registry state, including the modelled event-loop bookkeeping
(pendingTimers, pendingRecovery) and the per-connection data (connInfo). -/
structure RegistryState where
  connectionsByAuth : List (Nat × ConnId)
  messageQueues : List (RequestId × QueueRef)
  queueArena : List (QueueRef × MessageQueue)
  nextQueueRef : Nat
  reconnectGraceTimers : List (Nat × TimerId)
  pendingTimers : List (TimerId × Nat)
  pendingRecovery : List (Nat × TimerId)
  reconnectingAccounts : List Nat
  connInfo : List (ConnId × ConnInfo)
  nextTimerId : Nat
  deriving DecidableEq, Repr

def initState : RegistryState :=
  ⟨[], [], [], 0, [], [], [], [], [], 0⟩

/-- Read the per-connection record, defaulting to a fresh one. -/
def infoOf (ws : ConnId) (s : RegistryState) : ConnInfo :=
  (mGet ws s.connInfo).getD ConnInfo.default

/-- websocket.close(code, reason): the first close wins, later calls are
no-ops on an already closing socket. -/
def closeConn (ws : ConnId) (code : Nat) (reason : String) (s : RegistryState) : RegistryState :=
  let i := infoOf ws s
  match i.closedWith with
  | some _ => s
  | none => { s with connInfo := mSet ws { i with closedWith := some (code, reason) } s.connInfo }

/-- existingConnection.removeAllListeners(). -/
def detachListeners (ws : ConnId) (s : RegistryState) : RegistryState :=
  { s with connInfo := mSet ws { infoOf ws s with listeners := 0 } s.connInfo }

/-- Attaching one set of message/close/error handlers plus stamping
websocket._authIndex = authIndex (source lines 92-98). -/
def attachHandlers (ws : ConnId) (n : Nat) (s : RegistryState) : RegistryState :=
  let i := infoOf ws s
  { s with connInfo := mSet ws { i with listeners := i.listeners + 1, authStamp := some n } s.connInfo }

/-- The queue-closing pass of closeAllMessageQueues: messageQueues.forEach
of queue.close(), acting on the referenced queue objects. -/
def closeQueueRefs (refs : List QueueRef) (arena : List (QueueRef × MessageQueue)) :
    List (QueueRef × MessageQueue) :=
  refs.foldl
    (fun a r =>
      match mGet r a with
      | some q => mSet r q.doClose a
      | none => a)
    arena

/-- closeAllMessageQueues: when any queues are tracked, close each queue
object and clear the map (source lines 305-317). -/
def closeAllMessageQueues (s : RegistryState) : RegistryState :=
  if s.messageQueues = [] then s
  else
    { s with
      queueArena := closeQueueRefs (s.messageQueues.map Prod.snd) s.queueArena,
      messageQueues := [] }

/-- The duplicate-connection block of addConnection (source lines 52-65): a
registered connection of the tenant that is a different instance has its
listeners removed and is closed as replaced. -/
def replaceDuplicate (ws : ConnId) (n : Nat) (s : RegistryState) : RegistryState :=
  match mGet n s.connectionsByAuth with
  | some e =>
      if e = ws then s
      else closeConn e 1000 "Replaced by new connection" (detachListeners e s)
  | none => s

/-- The grace-timer block of addConnection (source lines 67-83): an
outstanding grace timer of the tenant is cancelled and deleted, and when the
reconnected tenant is the current account and queues exist, all message
queues are force-closed. -/
def clearGraceOnReconnect (cur : Int) (n : Nat) (s : RegistryState) : RegistryState :=
  match mGet n s.reconnectGraceTimers with
  | some t =>
    let s' := { s with
      reconnectGraceTimers := mDel n s.reconnectGraceTimers,
      pendingTimers := s.pendingTimers.filter (fun p => p.1 != t) }
    if (n : Int) = cur ∧ s'.messageQueues ≠ [] then closeAllMessageQueues s' else s'
  | none => s

/-- addConnection(websocket, clientInfo) (source lines 36-100).  cur is the
value getCurrentAuthIndex() returns at this moment (-1 when the accessor was
not supplied), ws the offered connection, a the raw clientInfo.authIndex. -/
def addConnection (cur : Int) (ws : ConnId) (a : AuthVal) (s : RegistryState) : RegistryState :=
  match validateAuth a with
  | none =>
    -- invalid authIndex: close with 1008 and return, nothing else mutated
    closeConn ws 1008 "Invalid authIndex" s
  | some n =>
    let s2 := clearGraceOnReconnect cur n (replaceDuplicate ws n s)
    -- store the connection, stamp _authIndex, attach handlers
    attachHandlers ws n { s2 with connectionsByAuth := mSet n ws s2.connectionsByAuth }

/-- getConnectionByAuth(authIndex): pure lookup (source lines 249-259). -/
def getConnectionByAuth (n : Nat) (s : RegistryState) : Option ConnId :=
  mGet n s.connectionsByAuth

/-- _removeConnection(websocket), the close handler (source lines 102-201) up
to the point where the grace timer is scheduled.  pageGone models the
browser-side liveness check: true when browserManager is present and reports
the page of the account closed or missing (the skip-reconnect branch). -/
def removeConnection (pageGone : Bool) (ws : ConnId) (s : RegistryState) : RegistryState :=
  match (infoOf ws s).authStamp with
  | none => s
  | some n =>
    let s1 := { s with connectionsByAuth := mDel n s.connectionsByAuth }
    if pageGone then
      -- intentionally closed account: clear any grace timer, no reconnect logic
      match mGet n s1.reconnectGraceTimers with
      | some t =>
        { s1 with
          reconnectGraceTimers := mDel n s1.reconnectGraceTimers,
          pendingTimers := s1.pendingTimers.filter (fun p => p.1 != t) }
      | none => s1
    else
      -- cancel a pre-existing timer (clearTimeout only; the map entry is
      -- overwritten just below), then schedule the 5 second grace timer
      let s2 :=
        match mGet n s1.reconnectGraceTimers with
        | some t => { s1 with pendingTimers := s1.pendingTimers.filter (fun p => p.1 != t) }
        | none => s1
      let t := s2.nextTimerId
      { s2 with
        reconnectGraceTimers := mSet n t s2.reconnectGraceTimers,
        pendingTimers := (t, n) :: s2.pendingTimers,
        nextTimerId := t + 1 }

/-- The grace period length of the source, milliseconds (setTimeout(..., 5000)). -/
def gracePeriodMs : Nat := 5000

/-- The recovery race timeout of the source, milliseconds (source line 162). -/
def lightweightReconnectTimeoutMs : Nat := 55000

/-- The recovery block of the grace callback (source lines 158-193): when a
recovery callback was supplied and account n is not already reconnecting,
mark n reconnecting and suspend at the await of the callback (recorded in
pendingRecovery; the rest of the callback runs in recoveryComplete).
Otherwise no recovery is invoked and the callback runs synchronously to its
end, deleting the grace timer map entry of n. -/
def startRecoveryOrFinish (cfg : Cfg) (n : Nat) (t : TimerId) (s : RegistryState) : RegistryState :=
  if cfg.hasCallback = true ∧ n ∉ s.reconnectingAccounts then
    { s with
      reconnectingAccounts := n :: s.reconnectingAccounts,
      pendingRecovery := (n, t) :: s.pendingRecovery }
  else
    { s with reconnectGraceTimers := mDel n s.reconnectGraceTimers }

/-- The grace timer callback (source lines 140-194) run when timer t,
scheduled for account n, fires: re-reads the current account (cur), closes
all queues only when n is current, then runs the recovery block. -/
def graceFire (cfg : Cfg) (cur : Int) (t : TimerId) (n : Nat) (s : RegistryState) : RegistryState :=
  let s1 := { s with pendingTimers := s.pendingTimers.filter (fun p => p != (t, n)) }
  let s2 := if (n : Int) = cur then closeAllMessageQueues s1 else s1
  startRecoveryOrFinish cfg n t s2

/-- How the awaited Promise.race settled: the callback resolved, the
callback rejected, or the 55 second timeout won the race. -/
inductive RecoveryOutcome : Type
  | success : RecoveryOutcome
  | failure : RecoveryOutcome
  | timedOut : RecoveryOutcome
  deriving DecidableEq, Repr

/-- Completion of a suspended grace callback for account n owning timer t
(source lines 176-193): whatever the outcome, the catch only logs, the
finally clears the race timer and deletes the reconnecting flag, and the
tail of the callback deletes the grace timer map entry of n. -/
def recoveryComplete (_o : RecoveryOutcome) (n : Nat) (t : TimerId) (s : RegistryState) :
    RegistryState :=
  { s with
    pendingRecovery := s.pendingRecovery.filter (fun p => p != (n, t)),
    reconnectingAccounts := s.reconnectingAccounts.filter (fun m => m != n),
    reconnectGraceTimers := mDel n s.reconnectGraceTimers }

/-- closeConnectionByAuth(authIndex) (source lines 265-285): explicit close
for account switches; removes the map entry immediately and clears any grace
timer. -/
def closeConnectionByAuth (n : Nat) (s : RegistryState) : RegistryState :=
  match mGet n s.connectionsByAuth with
  | none => s
  | some ws =>
    let s1 := { closeConn ws 1000 "" s with
      connectionsByAuth := mDel n (closeConn ws 1000 "" s).connectionsByAuth }
    match mGet n s1.reconnectGraceTimers with
    | some t =>
      { s1 with
        reconnectGraceTimers := mDel n s1.reconnectGraceTimers,
        pendingTimers := s1.pendingTimers.filter (fun p => p.1 != t) }
    | none => s1

/-- createMessageQueue(requestId) (source lines 287-291): allocates a fresh
queue object and registers it under the request id. -/
def createMessageQueue (rid : RequestId) (s : RegistryState) : RegistryState :=
  { s with
    queueArena := mSet s.nextQueueRef ⟨[], false⟩ s.queueArena,
    messageQueues := mSet rid s.nextQueueRef s.messageQueues,
    nextQueueRef := s.nextQueueRef + 1 }

/-- removeMessageQueue(requestId) (source lines 293-299): closes the queue
then deletes the map entry; absent id is a no-op. -/
def removeMessageQueue (rid : RequestId) (s : RegistryState) : RegistryState :=
  match mGet rid s.messageQueues with
  | none => s
  | some r =>
    { s with
      queueArena :=
        (match mGet r s.queueArena with
         | some q => mSet r q.doClose s.queueArena
         | none => s.queueArena),
      messageQueues := mDel rid s.messageQueues }

/-- _routeMessage(message, queue) (source lines 222-236): the closed switch
over event_type. -/
def routeMessage (m : ParsedMsg) (q : MessageQueue) : MessageQueue :=
  if m.eventType = "response_headers" ∨ m.eventType = "chunk" ∨ m.eventType = "error" then
    q.enq (.msg m)
  else if m.eventType = "stream_close" then
    q.enq .streamEnd
  else
    q

/-- The JS truthiness test !requestId on the extracted field: undefined and
the empty string are the falsy string-or-absent values. -/
def ridFalsy : Option String → Bool
  | none => true
  | some r => r == ""

/-- _handleIncomingMessage(messageData) (source lines 203-220): raw = none
models a JSON.parse failure (the catch only logs); a falsy request_id and an
unknown request id are logged and dropped. -/
def handleIncomingMessage (raw : Option ParsedMsg) (s : RegistryState) : RegistryState :=
  match raw with
  | none => s
  | some m =>
    if ridFalsy m.requestId then s
    else
      match mGet (m.requestId.getD "") s.messageQueues with
      | none => s
      | some r =>
        match mGet r s.queueArena with
        | none => s
        | some q => { s with queueArena := mSet r (routeMessage m q) s.queueArena }

/-- Emission of a "message" event on ws: every attached handler set runs the
incoming-message handler once, in attachment order. -/
def deliverMessage (ws : ConnId) (raw : Option ParsedMsg) (s : RegistryState) : RegistryState :=
  Nat.iterate (handleIncomingMessage raw) (infoOf ws s).listeners s

/-- Emission of a "close" event on ws: every attached handler set runs
_removeConnection once. -/
def deliverClose (pageGone : Bool) (ws : ConnId) (s : RegistryState) : RegistryState :=
  Nat.iterate (removeConnection pageGone ws) (infoOf ws s).listeners s

/-- One atomic event-loop task of the registry.  The relation
over-approximates the schedulable tasks (a close event is allowed for any
connection id), which only strengthens the safety invariants proved over it;
firing a grace timer and completing a suspended recovery demand that the
corresponding pending record exists, exactly as the event loop does. -/
inductive Step (cfg : Cfg) : RegistryState → RegistryState → Prop
  | add (cur : Int) (ws : ConnId) (a : AuthVal) (s : RegistryState) :
      Step cfg s (addConnection cur ws a s)
  | wsClose (pageGone : Bool) (ws : ConnId) (s : RegistryState) :
      Step cfg s (removeConnection pageGone ws s)
  | explicitClose (n : Nat) (s : RegistryState) :
      Step cfg s (closeConnectionByAuth n s)
  | createQ (rid : RequestId) (s : RegistryState) :
      Step cfg s (createMessageQueue rid s)
  | removeQ (rid : RequestId) (s : RegistryState) :
      Step cfg s (removeMessageQueue rid s)
  | closeAllQ (s : RegistryState) :
      Step cfg s (closeAllMessageQueues s)
  | msg (raw : Option ParsedMsg) (s : RegistryState) :
      Step cfg s (handleIncomingMessage raw s)
  | fire (cur : Int) (t : TimerId) (n : Nat) (s : RegistryState) :
      (t, n) ∈ s.pendingTimers → Step cfg s (graceFire cfg cur t n s)
  | recDone (o : RecoveryOutcome) (n : Nat) (t : TimerId) (s : RegistryState) :
      (n, t) ∈ s.pendingRecovery → Step cfg s (recoveryComplete o n t s)

/-- States reachable from the freshly constructed registry. -/
def Reachable (cfg : Cfg) (s : RegistryState) : Prop :=
  Relation.ReflTransGen (Step cfg) initState s

/-- The wire-to-queue translation realized by _routeMessage: the three
pass-through kinds are enqueued verbatim, stream_close becomes the sentinel,
anything else is dropped. -/
def translateFrame (m : ParsedMsg) : Option QueueItem :=
  if m.eventType = "response_headers" ∨ m.eventType = "chunk" ∨ m.eventType = "error" then
    some (.msg m)
  else if m.eventType = "stream_close" then
    some .streamEnd
  else
    none

/- ------------------------------------------------------------------ -/
/- Theorems.                                                          -/
/- ------------------------------------------------------------------ -/

theorem mGet_mSet_self {κ α : Type} [DecidableEq κ] (k : κ) (v : α) (l : List (κ × α)) :
    mGet k (mSet k v l) = some v := by
  induction l with
  | nil => simp [mGet, mSet]
  | cons h t ih =>
    obtain ⟨k', v'⟩ := h
    by_cases hk : k' = k <;> simp [mGet, mSet, hk, ih]

theorem mGet_mSet_ne {κ α : Type} [DecidableEq κ] (k k' : κ) (v : α) (l : List (κ × α))
    (h : k ≠ k') : mGet k' (mSet k v l) = mGet k' l := by
  induction l with
  | nil => simp [mGet, mSet, h]
  | cons hd t ih =>
    obtain ⟨k'', v''⟩ := hd
    by_cases hk : k'' = k
    · subst hk; simp [mGet, mSet, h]
    · simp only [mSet, if_neg hk, mGet]
      by_cases hk2 : k'' = k' <;> simp [hk2, ih]

theorem mGet_mDel_self {κ α : Type} [DecidableEq κ] (k : κ) (l : List (κ × α)) :
    mGet k (mDel k l) = none := by
  induction l with
  | nil => simp [mGet, mDel]
  | cons hd t ih =>
    obtain ⟨k', v'⟩ := hd
    by_cases hk : k' = k <;> simp [mGet, mDel, hk, ih]

theorem mGet_mDel_ne {κ α : Type} [DecidableEq κ] (k k' : κ) (l : List (κ × α))
    (h : k ≠ k') : mGet k' (mDel k l) = mGet k' l := by
  induction l with
  | nil => simp [mDel]
  | cons hd t ih =>
    obtain ⟨k'', v''⟩ := hd
    by_cases hk : k'' = k
    · subst hk; simp [mDel, mGet, h, ih]
    · simp only [mDel, if_neg hk, mGet]
      by_cases hk2 : k'' = k' <;> simp [hk2, ih]

theorem mDel_of_mGet_none {κ α : Type} [DecidableEq κ] (k : κ) (l : List (κ × α))
    (h : mGet k l = none) : mDel k l = l := by
  induction l with
  | nil => rfl
  | cons hd t ih =>
    obtain ⟨k', v'⟩ := hd
    by_cases hk : k' = k
    · simp [mGet, hk] at h
    · simp only [mGet, if_neg hk] at h
      simp [mDel, hk, ih h]

theorem MessageQueue.doClose_doClose (q : MessageQueue) : q.doClose.doClose = q.doClose := rfl

theorem closeConn_already (ws : ConnId) (c : Nat) (r : String) (s : RegistryState)
    (h : (infoOf ws s).closedWith ≠ none) : closeConn ws c r s = s := by
  rcases hc : (infoOf ws s).closedWith with _ | p
  · exact absurd hc h
  · simp only [closeConn]
    rw [hc]

theorem closeConn_fresh (ws : ConnId) (c : Nat) (r : String) (s : RegistryState)
    (h : (infoOf ws s).closedWith = none) :
    closeConn ws c r s =
      { s with connInfo := mSet ws { infoOf ws s with closedWith := some (c, r) } s.connInfo } := by
  simp only [closeConn]
  rw [h]

theorem closeConn_eq (ws : ConnId) (c : Nat) (r : String) (s : RegistryState) :
    ∃ ci, closeConn ws c r s = { s with connInfo := ci } := by
  rcases hc : (infoOf ws s).closedWith with _ | p
  · exact ⟨_, closeConn_fresh ws c r s hc⟩
  · exact ⟨s.connInfo, by rw [closeConn_already ws c r s (by simp [hc])]⟩

theorem closeConn_infoOf_ne (ws w : ConnId) (c : Nat) (r : String) (s : RegistryState)
    (h : w ≠ ws) : infoOf w (closeConn ws c r s) = infoOf w s := by
  rcases hc : (infoOf ws s).closedWith with _ | p
  · rw [closeConn_fresh ws c r s hc]
    simp [infoOf, mGet_mSet_ne ws w _ _ (Ne.symm h)]
  · rw [closeConn_already ws c r s (by simp [hc])]

theorem replaceDuplicate_eq (ws : ConnId) (n : Nat) (s : RegistryState) :
    ∃ ci, replaceDuplicate ws n s = { s with connInfo := ci } := by
  unfold replaceDuplicate
  split
  · split
    · exact ⟨s.connInfo, rfl⟩
    · obtain ⟨ci, hc⟩ := closeConn_eq _ 1000 "Replaced by new connection" (detachListeners _ s)
      exact ⟨ci, by rw [hc]; rfl⟩
  · exact ⟨s.connInfo, rfl⟩

theorem replaceDuplicate_infoOf_ws (ws : ConnId) (n : Nat) (s : RegistryState) :
    infoOf ws (replaceDuplicate ws n s) = infoOf ws s := by
  unfold replaceDuplicate
  split
  · next e _ =>
    split
    · rfl
    · next hne =>
      rw [closeConn_infoOf_ne e ws _ _ _ (fun hw => hne hw.symm)]
      simp [detachListeners, infoOf, mGet_mSet_ne e ws _ _ (fun hw => hne hw)]
  · rfl

theorem replaceDuplicate_old (ws old : ConnId) (n : Nat) (s : RegistryState)
    (hc : mGet n s.connectionsByAuth = some old) (hne : old ≠ ws) :
    (infoOf old (replaceDuplicate ws n s)).listeners = 0
    ∧ (infoOf old (replaceDuplicate ws n s)).authStamp = (infoOf old s).authStamp
    ∧ ((infoOf old s).closedWith = none →
        (infoOf old (replaceDuplicate ws n s)).closedWith = some (1000, "Replaced by new connection")) := by
  unfold replaceDuplicate
  rw [hc]
  simp only [if_neg hne]
  have hdet : infoOf old (detachListeners old s) = { infoOf old s with listeners := 0 } := by
    simp [detachListeners, infoOf, mGet_mSet_self]
  by_cases hcw : (infoOf old s).closedWith = none
  · have hdc : (infoOf old (detachListeners old s)).closedWith = none := by rw [hdet]; exact hcw
    rw [closeConn_fresh old 1000 _ _ hdc]
    simp [infoOf, detachListeners, mGet_mSet_self]
  · rw [closeConn_already old 1000 _ _ (by rw [hdet]; simpa using hcw)]
    rw [hdet]
    simp [hcw]

theorem closeQueueRefs_get (refs : List QueueRef) :
    ∀ (arena : List (QueueRef × MessageQueue)) (r : QueueRef),
      mGet r (closeQueueRefs refs arena)
        = if r ∈ refs then (mGet r arena).map MessageQueue.doClose else mGet r arena := by
  induction refs with
  | nil => intro arena r; simp [closeQueueRefs]
  | cons x xs ih =>
    intro arena r
    have hstep : closeQueueRefs (x :: xs) arena
        = closeQueueRefs xs
            (match mGet x arena with
             | some q => mSet x q.doClose arena
             | none => arena) := by
      simp [closeQueueRefs]
    rw [hstep, ih]
    by_cases hrx : r = x
    · subst hrx
      have hx : mGet r (match mGet r arena with
          | some q => mSet r q.doClose arena
          | none => arena) = (mGet r arena).map MessageQueue.doClose := by
        cases h : mGet r arena with
        | none => simp [h]
        | some q => simp [h, mGet_mSet_self]
      have hcomp : MessageQueue.doClose ∘ MessageQueue.doClose = MessageQueue.doClose :=
        funext MessageQueue.doClose_doClose
      by_cases hin : r ∈ xs <;> simp [hx, hin, Option.map_map, hcomp]
    · have hx : mGet r (match mGet x arena with
          | some q => mSet x q.doClose arena
          | none => arena) = mGet r arena := by
        cases h : mGet x arena with
        | none => simp
        | some q => simp [mGet_mSet_ne x r _ _ (fun hw => hrx hw.symm)]
      by_cases hin : r ∈ xs <;> simp [hx, hin, hrx]

theorem closeAll_shape (s : RegistryState) :
    closeAllMessageQueues s
      = { s with
          queueArena := closeQueueRefs (s.messageQueues.map Prod.snd) s.queueArena,
          messageQueues := [] } := by
  rcases s with ⟨cba, mq, qa, nqr, tm, pt, pr, ra, ci, nt⟩
  unfold closeAllMessageQueues
  split
  · next h =>
    simp only at h
    subst h
    simp [closeQueueRefs]
  · rfl

theorem closeAll_arena_closed (s : RegistryState) (r : QueueRef) (q : MessageQueue)
    (hr : r ∈ s.messageQueues.map Prod.snd) (hq : mGet r s.queueArena = some q) :
    mGet r (closeAllMessageQueues s).queueArena = some q.doClose := by
  rw [closeAll_shape]
  simp only
  rw [closeQueueRefs_get]
  simp [hr, hq]

theorem clearGrace_shape (cur : Int) (n : Nat) (s : RegistryState) :
    ∃ mq qa pt,
      clearGraceOnReconnect cur n s
        = { s with
            messageQueues := mq, queueArena := qa,
            reconnectGraceTimers := mDel n s.reconnectGraceTimers, pendingTimers := pt } := by
  rcases ht : mGet n s.reconnectGraceTimers with _ | t
  · refine ⟨s.messageQueues, s.queueArena, s.pendingTimers, ?_⟩
    simp only [clearGraceOnReconnect, ht]
    rw [mDel_of_mGet_none n _ ht]
  · simp only [clearGraceOnReconnect, ht]
    split
    · rw [closeAll_shape]
      exact ⟨_, _, _, rfl⟩
    · exact ⟨_, _, _, rfl⟩

theorem clearGrace_pendingTimers_subset (cur : Int) (n : Nat) (s : RegistryState) :
    ∀ p ∈ (clearGraceOnReconnect cur n s).pendingTimers, p ∈ s.pendingTimers := by
  rcases ht : mGet n s.reconnectGraceTimers with _ | t
  · simp only [clearGraceOnReconnect, ht]
    intro p hp
    exact hp
  · simp only [clearGraceOnReconnect, ht]
    split
    · rw [closeAll_shape]
      intro p hp
      simp only at hp
      exact (List.mem_filter.mp hp).1
    · intro p hp
      exact (List.mem_filter.mp hp).1

theorem clearGrace_pendingTimers_of_timer (cur : Int) (n : Nat) (t : TimerId) (s : RegistryState)
    (ht : mGet n s.reconnectGraceTimers = some t) :
    (clearGraceOnReconnect cur n s).pendingTimers
      = s.pendingTimers.filter (fun p => p.1 != t) := by
  simp only [clearGraceOnReconnect, ht]
  split
  · rw [closeAll_shape]
  · rfl

theorem clearGrace_timers_del (cur : Int) (n : Nat) (s : RegistryState) :
    (clearGraceOnReconnect cur n s).reconnectGraceTimers = mDel n s.reconnectGraceTimers := by
  obtain ⟨mq, qa, pt, h⟩ := clearGrace_shape cur n s
  rw [h]

theorem clearGrace_queues_of_inactive (cur : Int) (n : Nat) (s : RegistryState)
    (h : ¬ ((n : Int) = cur ∧ s.messageQueues ≠ [])) :
    (clearGraceOnReconnect cur n s).messageQueues = s.messageQueues
    ∧ (clearGraceOnReconnect cur n s).queueArena = s.queueArena := by
  rcases ht : mGet n s.reconnectGraceTimers with _ | t
  · simp only [clearGraceOnReconnect, ht]
    constructor <;> trivial
  · simp only [clearGraceOnReconnect, ht]
    split
    · next hcond => exact absurd hcond h
    · constructor <;> trivial

theorem clearGrace_queues_closed (cur : Int) (n : Nat) (t : TimerId) (s : RegistryState)
    (ht : mGet n s.reconnectGraceTimers = some t)
    (hcur : (n : Int) = cur) (hne : s.messageQueues ≠ []) :
    (clearGraceOnReconnect cur n s).messageQueues = []
    ∧ ∀ r q, r ∈ s.messageQueues.map Prod.snd → mGet r s.queueArena = some q →
        mGet r (clearGraceOnReconnect cur n s).queueArena = some q.doClose := by
  simp only [clearGraceOnReconnect, ht]
  rw [if_pos (And.intro hcur hne)]
  constructor
  · rw [closeAll_shape]
  · intro r q hr hq
    exact closeAll_arena_closed _ r q hr hq

theorem addConnection_valid_shape (cur : Int) (ws : ConnId) (a : AuthVal) (n : Nat)
    (s : RegistryState) (hv : validateAuth a = some n) :
    addConnection cur ws a s
      = attachHandlers ws n
          { clearGraceOnReconnect cur n (replaceDuplicate ws n s) with
            connectionsByAuth :=
              mSet n ws (clearGraceOnReconnect cur n (replaceDuplicate ws n s)).connectionsByAuth } := by
  simp only [addConnection, hv]

theorem addConnection_invalid_shape (cur : Int) (ws : ConnId) (a : AuthVal)
    (s : RegistryState) (hv : validateAuth a = none) :
    addConnection cur ws a s = closeConn ws 1008 "Invalid authIndex" s := by
  simp only [addConnection, hv]

theorem addConnection_frame (cur : Int) (ws : ConnId) (a : AuthVal) (n : Nat)
    (s : RegistryState) (hv : validateAuth a = some n) :
    (addConnection cur ws a s).connectionsByAuth = mSet n ws s.connectionsByAuth
    ∧ (addConnection cur ws a s).reconnectGraceTimers = mDel n s.reconnectGraceTimers
    ∧ (addConnection cur ws a s).pendingRecovery = s.pendingRecovery
    ∧ (addConnection cur ws a s).reconnectingAccounts = s.reconnectingAccounts
    ∧ (addConnection cur ws a s).nextTimerId = s.nextTimerId
    ∧ (addConnection cur ws a s).nextQueueRef = s.nextQueueRef := by
  rw [addConnection_valid_shape cur ws a n s hv]
  obtain ⟨ci1, h1⟩ := replaceDuplicate_eq ws n s
  obtain ⟨mq, qa, pt, h2⟩ := clearGrace_shape cur n (replaceDuplicate ws n s)
  rw [h2, h1]
  simp [attachHandlers]

theorem addConnection_pendingTimers_subset (cur : Int) (ws : ConnId) (a : AuthVal) (n : Nat)
    (s : RegistryState) (hv : validateAuth a = some n) :
    ∀ p ∈ (addConnection cur ws a s).pendingTimers, p ∈ s.pendingTimers := by
  rw [addConnection_valid_shape cur ws a n s hv]
  intro p hp
  have hp' : p ∈ (clearGraceOnReconnect cur n (replaceDuplicate ws n s)).pendingTimers := by
    simpa [attachHandlers] using hp
  have hmem := clearGrace_pendingTimers_subset cur n (replaceDuplicate ws n s) p hp'
  obtain ⟨ci1, h1⟩ := replaceDuplicate_eq ws n s
  rw [h1] at hmem
  exact hmem

theorem addConnection_pendingTimers_of_timer (cur : Int) (ws : ConnId) (a : AuthVal) (n : Nat)
    (t : TimerId) (s : RegistryState) (hv : validateAuth a = some n)
    (ht : mGet n s.reconnectGraceTimers = some t) :
    (addConnection cur ws a s).pendingTimers = s.pendingTimers.filter (fun p => p.1 != t) := by
  rw [addConnection_valid_shape cur ws a n s hv]
  obtain ⟨ci1, h1⟩ := replaceDuplicate_eq ws n s
  have ht' : mGet n (replaceDuplicate ws n s).reconnectGraceTimers = some t := by
    rw [h1]; exact ht
  have := clearGrace_pendingTimers_of_timer cur n t (replaceDuplicate ws n s) ht'
  simp only [attachHandlers]
  rw [this, h1]

theorem addConnection_connInfo_shape (cur : Int) (ws : ConnId) (a : AuthVal) (n : Nat)
    (s : RegistryState) (hv : validateAuth a = some n) :
    (addConnection cur ws a s).connInfo
      = mSet ws
          ⟨(infoOf ws s).listeners + 1, (infoOf ws s).closedWith, some n⟩
          (replaceDuplicate ws n s).connInfo := by
  rw [addConnection_valid_shape cur ws a n s hv]
  obtain ⟨mq, qa, pt, h2⟩ := clearGrace_shape cur n (replaceDuplicate ws n s)
  rw [h2]
  have hi : infoOf ws (replaceDuplicate ws n s) = infoOf ws s := replaceDuplicate_infoOf_ws ws n s
  simp only [infoOf] at hi
  simp only [attachHandlers, infoOf]
  rw [hi]

theorem addConnection_infoOf_ws (cur : Int) (ws : ConnId) (a : AuthVal) (n : Nat)
    (s : RegistryState) (hv : validateAuth a = some n) :
    infoOf ws (addConnection cur ws a s)
      = ⟨(infoOf ws s).listeners + 1, (infoOf ws s).closedWith, some n⟩ := by
  unfold infoOf
  rw [show (addConnection cur ws a s).connInfo
        = mSet ws ⟨(infoOf ws s).listeners + 1, (infoOf ws s).closedWith, some n⟩
            (replaceDuplicate ws n s).connInfo from addConnection_connInfo_shape cur ws a n s hv]
  rw [mGet_mSet_self]
  rfl

theorem addConnection_infoOf_ne (cur : Int) (ws w : ConnId) (a : AuthVal) (n : Nat)
    (s : RegistryState) (hv : validateAuth a = some n) (hw : w ≠ ws) :
    infoOf w (addConnection cur ws a s) = infoOf w (replaceDuplicate ws n s) := by
  unfold infoOf
  rw [show (addConnection cur ws a s).connInfo
        = mSet ws ⟨(infoOf ws s).listeners + 1, (infoOf ws s).closedWith, some n⟩
            (replaceDuplicate ws n s).connInfo from addConnection_connInfo_shape cur ws a n s hv]
  rw [mGet_mSet_ne ws w _ _ (Ne.symm hw)]

theorem removeConnection_spec (g : Bool) (ws : ConnId) (s : RegistryState) :
    removeConnection g ws s = s
    ∨ (∃ n tm pt ntid,
        (infoOf ws s).authStamp = some n
        ∧ removeConnection g ws s
            = { s with connectionsByAuth := mDel n s.connectionsByAuth,
                       reconnectGraceTimers := tm, pendingTimers := pt, nextTimerId := ntid }
        ∧ (∀ p ∈ pt, p ∈ s.pendingTimers ∨ p.1 = s.nextTimerId)
        ∧ s.nextTimerId ≤ ntid) := by
  rcases hst : (infoOf ws s).authStamp with _ | n
  · left
    simp only [removeConnection, hst]
  · right
    simp only [removeConnection, hst]
    by_cases hg : g
    · simp only [hg, if_true]
      rcases ht : mGet n s.reconnectGraceTimers with _ | t
      · exact ⟨n, _, _, _, rfl, rfl, fun p hp => Or.inl hp, le_refl _⟩
      · refine ⟨n, _, _, _, rfl, rfl, ?_, le_refl _⟩
        intro p hp
        exact Or.inl (List.mem_filter.mp hp).1
    · simp only [hg, if_false]
      rcases ht : mGet n s.reconnectGraceTimers with _ | t
      · refine ⟨n, _, _, _, rfl, rfl, ?_, Nat.le_succ _⟩
        intro p hp
        rcases List.mem_cons.mp hp with h | h
        · right; rw [h]
        · exact Or.inl h
      · refine ⟨n, _, _, _, rfl, rfl, ?_, Nat.le_succ _⟩
        intro p hp
        rcases List.mem_cons.mp hp with h | h
        · right; rw [h]
        · exact Or.inl (List.mem_filter.mp h).1

theorem startRecovery_shape (cfg : Cfg) (n : Nat) (t : TimerId) (s : RegistryState) :
    ∃ tm ra pr,
      startRecoveryOrFinish cfg n t s
        = { s with reconnectGraceTimers := tm, reconnectingAccounts := ra,
                   pendingRecovery := pr } := by
  unfold startRecoveryOrFinish
  split
  · exact ⟨_, _, _, rfl⟩
  · exact ⟨_, _, _, rfl⟩

theorem startRecovery_blocked (cfg : Cfg) (n : Nat) (t : TimerId) (s : RegistryState)
    (hg : ¬ (cfg.hasCallback = true ∧ n ∉ s.reconnectingAccounts)) :
    startRecoveryOrFinish cfg n t s
      = { s with reconnectGraceTimers := mDel n s.reconnectGraceTimers } := by
  unfold startRecoveryOrFinish
  rw [if_neg hg]

theorem startRecovery_go (cfg : Cfg) (n : Nat) (t : TimerId) (s : RegistryState)
    (hg : cfg.hasCallback = true ∧ n ∉ s.reconnectingAccounts) :
    startRecoveryOrFinish cfg n t s
      = { s with reconnectingAccounts := n :: s.reconnectingAccounts,
                 pendingRecovery := (n, t) :: s.pendingRecovery } := by
  unfold startRecoveryOrFinish
  rw [if_pos hg]

theorem graceFire_spec (cfg : Cfg) (cur : Int) (t : TimerId) (n : Nat) (s : RegistryState) :
    ∃ mq qa tm ra pr,
      graceFire cfg cur t n s
        = { s with messageQueues := mq, queueArena := qa,
                   pendingTimers := s.pendingTimers.filter (fun p => p != (t, n)),
                   reconnectGraceTimers := tm, reconnectingAccounts := ra,
                   pendingRecovery := pr } := by
  simp only [graceFire]
  by_cases hcur : (n : Int) = cur
  · rw [if_pos hcur]
    obtain ⟨tm, ra, pr, hsr⟩ := startRecovery_shape cfg n t
      (closeAllMessageQueues
        { s with pendingTimers := s.pendingTimers.filter (fun p => p != (t, n)) })
    rw [hsr, closeAll_shape]
    exact ⟨_, _, _, _, _, rfl⟩
  · rw [if_neg hcur]
    obtain ⟨tm, ra, pr, hsr⟩ := startRecovery_shape cfg n t
      { s with pendingTimers := s.pendingTimers.filter (fun p => p != (t, n)) }
    rw [hsr]
    exact ⟨_, _, _, _, _, rfl⟩

theorem recoveryComplete_shape (o : RecoveryOutcome) (n : Nat) (t : TimerId) (s : RegistryState) :
    recoveryComplete o n t s
      = { s with pendingRecovery := s.pendingRecovery.filter (fun p => p != (n, t)),
                 reconnectingAccounts := s.reconnectingAccounts.filter (fun m => m != n),
                 reconnectGraceTimers := mDel n s.reconnectGraceTimers } := rfl

theorem closeByAuth_spec (n : Nat) (s : RegistryState) :
    closeConnectionByAuth n s = s
    ∨ (∃ ci tm pt,
        closeConnectionByAuth n s
          = { s with connectionsByAuth := mDel n s.connectionsByAuth,
                     connInfo := ci, reconnectGraceTimers := tm, pendingTimers := pt }
        ∧ (∀ p ∈ pt, p ∈ s.pendingTimers)) := by
  rcases hc : mGet n s.connectionsByAuth with _ | ws
  · left
    simp only [closeConnectionByAuth, hc]
  · right
    simp only [closeConnectionByAuth, hc]
    obtain ⟨ci, hcc⟩ := closeConn_eq ws 1000 "" s
    rw [hcc]
    rcases ht : mGet n s.reconnectGraceTimers with _ | t
    · refine ⟨ci, _, _, rfl, fun p hp => hp⟩
    · refine ⟨ci, _, _, rfl, ?_⟩
      intro p hp
      exact (List.mem_filter.mp hp).1

theorem createMessageQueue_shape (rid : RequestId) (s : RegistryState) :
    createMessageQueue rid s
      = { s with queueArena := mSet s.nextQueueRef ⟨[], false⟩ s.queueArena,
                 messageQueues := mSet rid s.nextQueueRef s.messageQueues,
                 nextQueueRef := s.nextQueueRef + 1 } := rfl

theorem removeMessageQueue_shape (rid : RequestId) (s : RegistryState) :
    ∃ mq qa, removeMessageQueue rid s = { s with messageQueues := mq, queueArena := qa } := by
  rcases hc : mGet rid s.messageQueues with _ | r
  · exact ⟨s.messageQueues, s.queueArena, by simp only [removeMessageQueue, hc]⟩
  · simp only [removeMessageQueue, hc]
    exact ⟨_, _, rfl⟩

theorem handleIncoming_shape (raw : Option ParsedMsg) (s : RegistryState) :
    ∃ qa, handleIncomingMessage raw s = { s with queueArena := qa } := by
  rcases raw with _ | m
  · exact ⟨s.queueArena, rfl⟩
  · by_cases hf : ridFalsy m.requestId
    · exact ⟨s.queueArena, by simp [handleIncomingMessage, hf]⟩
    · have hf' : ridFalsy m.requestId = false := by simpa using hf
      rcases hq : mGet (m.requestId.getD "") s.messageQueues with _ | r
      · exact ⟨s.queueArena, by simp [handleIncomingMessage, hf', hq]⟩
      · rcases ha : mGet r s.queueArena with _ | q
        · exact ⟨s.queueArena, by simp [handleIncomingMessage, hf', hq, ha]⟩
        · exact ⟨mSet r (routeMessage m q) s.queueArena,
            by simp [handleIncomingMessage, hf', hq, ha]⟩

theorem mDel_sublist {κ α : Type} [DecidableEq κ] (k : κ) (l : List (κ × α)) :
    (mDel k l).Sublist l := by
  induction l with
  | nil => exact List.Sublist.refl _
  | cons hd tl ih =>
    obtain ⟨k', v'⟩ := hd
    by_cases hk : k' = k
    · simp only [mDel, if_pos hk]
      exact ih.cons _
    · simp only [mDel, if_neg hk]
      exact ih.cons₂ _

theorem mSet_cons_same {κ α : Type} [DecidableEq κ] (k : κ) (v v' : α) (l : List (κ × α)) :
    mSet k v ((k, v') :: l) = (k, v) :: l := by
  simp [mSet]

theorem mSet_cons_ne {κ α : Type} [DecidableEq κ] (k k' : κ) (v v' : α) (l : List (κ × α))
    (h : k' ≠ k) : mSet k v ((k', v') :: l) = (k', v') :: mSet k v l := by
  simp [mSet, h]

theorem mem_keys_mSet {κ α : Type} [DecidableEq κ] (k a : κ) (v : α) (l : List (κ × α))
    (h : a ∈ (mSet k v l).map Prod.fst) : a = k ∨ a ∈ l.map Prod.fst := by
  induction l with
  | nil =>
    left
    simpa [mSet] using h
  | cons hd tl ih =>
    obtain ⟨k', v'⟩ := hd
    by_cases hk : k' = k
    · subst hk
      rw [mSet_cons_same] at h
      simp only [List.map_cons, List.mem_cons] at h ⊢
      tauto
    · rw [mSet_cons_ne k k' v v' tl hk] at h
      simp only [List.map_cons, List.mem_cons] at h ⊢
      rcases h with h | h
      · tauto
      · rcases ih h with h' | h' <;> tauto

theorem keys_mSet_nodup {κ α : Type} [DecidableEq κ] (k : κ) (v : α) (l : List (κ × α))
    (h : (l.map Prod.fst).Nodup) : ((mSet k v l).map Prod.fst).Nodup := by
  induction l with
  | nil => simp [mSet]
  | cons hd tl ih =>
    obtain ⟨k', v'⟩ := hd
    simp only [List.map_cons, List.nodup_cons] at h
    by_cases hk : k' = k
    · subst hk
      rw [mSet_cons_same]
      simp only [List.map_cons, List.nodup_cons]
      exact ⟨h.1, h.2⟩
    · rw [mSet_cons_ne k k' v v' tl hk]
      simp only [List.map_cons, List.nodup_cons]
      refine ⟨?_, ih h.2⟩
      intro hmem
      rcases mem_keys_mSet k k' v tl hmem with h' | h'
      · exact hk h'
      · exact h.1 h'

theorem keys_mDel_nodup {κ α : Type} [DecidableEq κ] (k : κ) (l : List (κ × α))
    (h : (l.map Prod.fst).Nodup) : ((mDel k l).map Prod.fst).Nodup :=
  ((mDel_sublist k l).map Prod.fst).nodup h

theorem routeMessage_open (m : ParsedMsg) (q : MessageQueue) (h : q.closed = false) :
    routeMessage m q = ⟨q.items ++ (translateFrame m).toList, false⟩ := by
  obtain ⟨items, closed⟩ := q
  simp only at h
  subst h
  simp only [routeMessage, translateFrame, MessageQueue.enq]
  split_ifs <;> simp_all

theorem handleIncoming_hit (m : ParsedMsg) (rid : RequestId) (r : QueueRef) (q : MessageQueue)
    (s : RegistryState) (hrid : rid ≠ "") (hm : m.requestId = some rid)
    (hq : mGet rid s.messageQueues = some r) (ha : mGet r s.queueArena = some q) :
    handleIncomingMessage (some m) s = { s with queueArena := mSet r (routeMessage m q) s.queueArena } := by
  have hfalsy : ridFalsy (some rid) = false := by
    simpa [ridFalsy] using hrid
  simp [handleIncomingMessage, hm, hfalsy, hq, ha]

theorem fold_route (rid : RequestId) (r : QueueRef) (frames : List ParsedMsg) :
    ∀ (s : RegistryState) (q : MessageQueue),
      rid ≠ "" →
      mGet rid s.messageQueues = some r →
      mGet r s.queueArena = some q →
      q.closed = false →
      (∀ m ∈ frames, m.requestId = some rid) →
      mGet r (frames.foldl (fun st m => handleIncomingMessage (some m) st) s).queueArena
        = some ⟨q.items ++ frames.filterMap translateFrame, false⟩ := by
  induction frames with
  | nil =>
    intro s q hrid hq ha hopen _
    obtain ⟨items, closed⟩ := q
    simp only at hopen
    subst hopen
    simpa using ha
  | cons m rest ih =>
    intro s q hrid hq ha hopen hall
    have hm : m.requestId = some rid := hall m (List.mem_cons_self m rest)
    rw [List.foldl_cons, handleIncoming_hit m rid r q s hrid hm hq ha]
    have hopen' : (routeMessage m q).closed = false := by
      rw [routeMessage_open m q hopen]
    have := ih { s with queueArena := mSet r (routeMessage m q) s.queueArena } (routeMessage m q)
      hrid (by simpa using hq) (by simpa using mGet_mSet_self r _ s.queueArena) hopen'
      (fun m' hm' => hall m' (List.mem_cons_of_mem m hm'))
    rw [this, routeMessage_open m q hopen]
    simp [List.filterMap_cons]
    cases h : translateFrame m <;> simp [h]

/-- C2: for a sequence of inbound frames all bearing the same request id with
a registered queue, the queue observes, in arrival order, exactly the
translation of the sequence: response_headers, chunk and error frames are
enqueued verbatim, each stream_close frame becomes exactly one STREAM_END
sentinel (the raw frame is never enqueued), and any other kind leaves the
queue untouched. -/
theorem claim_C2_routing (s : RegistryState) (rid : RequestId) (r : QueueRef)
    (q : MessageQueue) (frames : List ParsedMsg)
    (hrid : rid ≠ "") (hq : mGet rid s.messageQueues = some r)
    (ha : mGet r s.queueArena = some q) (hopen : q.closed = false)
    (hall : ∀ m ∈ frames, m.requestId = some rid) :
    mGet r (frames.foldl (fun st m => handleIncomingMessage (some m) st) s).queueArena
      = some ⟨q.items ++ frames.filterMap translateFrame, false⟩
    ∧ (∀ (m : ParsedMsg) (q' : MessageQueue), q'.closed = false →
        ((m.eventType = "response_headers" ∨ m.eventType = "chunk" ∨ m.eventType = "error") →
          routeMessage m q' = ⟨q'.items ++ [.msg m], false⟩)
        ∧ (m.eventType = "stream_close" →
          routeMessage m q' = ⟨q'.items ++ [.streamEnd], false⟩)
        ∧ (m.eventType ≠ "response_headers" → m.eventType ≠ "chunk" → m.eventType ≠ "error" →
            m.eventType ≠ "stream_close" → routeMessage m q' = q')) := by
  refine ⟨fold_route rid r frames s q hrid hq ha hopen hall, ?_⟩
  intro m q' hopen'
  refine ⟨?_, ?_, ?_⟩
  · intro hk
    rw [routeMessage_open m q' hopen']
    simp [translateFrame, hk]
  · intro hk
    rw [routeMessage_open m q' hopen']
    have : ¬ (m.eventType = "response_headers" ∨ m.eventType = "chunk" ∨ m.eventType = "error") := by
      simp [hk]
    simp [translateFrame, this, hk]
  · intro h1 h2 h3 h4
    obtain ⟨items, closed⟩ := q'
    simp only at hopen'
    subst hopen'
    rw [routeMessage_open _ _ rfl]
    simp [translateFrame, h1, h2, h3, h4]

/-- C2 witness: the scenario of the spec, three chunks then one stream_close
on request r1, observed as three verbatim chunks and one sentinel. -/
theorem claim_C2_routing_witness :
    ("r1" : RequestId) ≠ ""
    ∧ mGet "r1" (createMessageQueue "r1" initState).messageQueues = some 0
    ∧ mGet 0 (createMessageQueue "r1" initState).queueArena = some ⟨[], false⟩
    ∧ (∀ m ∈ [(⟨some "r1", "chunk", "a"⟩ : ParsedMsg), ⟨some "r1", "chunk", "b"⟩,
        ⟨some "r1", "chunk", "c"⟩, ⟨some "r1", "stream_close", ""⟩], m.requestId = some "r1")
    ∧ mGet 0 (([(⟨some "r1", "chunk", "a"⟩ : ParsedMsg), ⟨some "r1", "chunk", "b"⟩,
        ⟨some "r1", "chunk", "c"⟩, ⟨some "r1", "stream_close", ""⟩].foldl
          (fun st m => handleIncomingMessage (some m) st)
          (createMessageQueue "r1" initState))).queueArena
      = some ⟨([] : List QueueItem) ++ [(⟨some "r1", "chunk", "a"⟩ : ParsedMsg), ⟨some "r1", "chunk", "b"⟩,
          ⟨some "r1", "chunk", "c"⟩, ⟨some "r1", "stream_close", ""⟩].filterMap translateFrame, false⟩ := by
  refine ⟨by decide, by decide, by decide, by decide, ?_⟩
  exact (claim_C2_routing (createMessageQueue "r1" initState) "r1" 0 ⟨[], false⟩ _
    (by decide) (by decide) (by decide) rfl (by decide)).1

/-- C3: the incoming-message handler never raises (it is a total function)
and drops bad input without touching any registry state: a frame that fails
to parse, a frame with a falsy request_id, and a frame whose request id has
no registered queue all leave the state exactly as it was — in particular no
queue is created. -/
theorem claim_C3_drop_semantics (s : RegistryState) :
    handleIncomingMessage none s = s
    ∧ (∀ m : ParsedMsg, ridFalsy m.requestId = true → handleIncomingMessage (some m) s = s)
    ∧ (∀ m : ParsedMsg, mGet (m.requestId.getD "") s.messageQueues = none →
        handleIncomingMessage (some m) s = s) := by
  refine ⟨rfl, ?_, ?_⟩
  · intro m hm
    simp [handleIncomingMessage, hm]
  · intro m hm
    by_cases hf : ridFalsy m.requestId <;> simp [handleIncomingMessage, hf, hm]

/-- C3 witness: a missing request_id and an unknown request id are both
dropped without any state change on a concrete state. -/
theorem claim_C3_drop_semantics_witness :
    (ridFalsy (some "") = true
      ∧ handleIncomingMessage (some ⟨some "", "chunk", "x"⟩) initState = initState)
    ∧ (mGet (((some "nope" : Option String)).getD "") initState.messageQueues = none
      ∧ handleIncomingMessage (some ⟨some "nope", "chunk", "x"⟩) initState = initState) := by
  constructor
  · exact ⟨by decide, (claim_C3_drop_semantics initState).2.1 ⟨some "", "chunk", "x"⟩ (by decide)⟩
  · exact ⟨by decide, (claim_C3_drop_semantics initState).2.2 ⟨some "nope", "chunk", "x"⟩ (by decide)⟩

theorem step_conns_shape (cfg : Cfg) (s s' : RegistryState) (h : Step cfg s s') :
    s'.connectionsByAuth = s.connectionsByAuth
    ∨ (∃ n w, s'.connectionsByAuth = mSet n w s.connectionsByAuth)
    ∨ (∃ n, s'.connectionsByAuth = mDel n s.connectionsByAuth) := by
  cases h with
  | add cur ws a =>
    rcases hv : validateAuth a with _ | n
    · left
      rw [addConnection_invalid_shape cur ws a s hv]
      obtain ⟨ci, hc⟩ := closeConn_eq ws 1008 "Invalid authIndex" s
      rw [hc]
    · right; left
      exact ⟨n, ws, (addConnection_frame cur ws a n s hv).1⟩
  | wsClose g ws =>
    rcases removeConnection_spec g ws s with h | ⟨n, tm, pt, ntid, _, heq, _, _⟩
    · left; rw [h]
    · right; right
      exact ⟨n, by rw [heq]⟩
  | explicitClose n =>
    rcases closeByAuth_spec n s with h | ⟨ci, tm, pt, heq, _⟩
    · left; rw [h]
    · right; right
      exact ⟨n, by rw [heq]⟩
  | createQ rid =>
    left; rw [createMessageQueue_shape]
  | removeQ rid =>
    left
    obtain ⟨mq, qa, heq⟩ := removeMessageQueue_shape rid s
    rw [heq]
  | closeAllQ =>
    left; rw [closeAll_shape]
  | msg raw =>
    left
    obtain ⟨qa, heq⟩ := handleIncoming_shape raw s
    rw [heq]
  | fire cur t n hp =>
    left
    obtain ⟨mq, qa, tm, ra, pr, heq⟩ := graceFire_spec cfg cur t n s
    rw [heq]
  | recDone o n t hp =>
    left; rw [recoveryComplete_shape]

theorem reachable_conns_nodup (cfg : Cfg) (u : RegistryState) (hu : Reachable cfg u) :
    (u.connectionsByAuth.map Prod.fst).Nodup := by
  have hu' : Relation.ReflTransGen (Step cfg) initState u := hu
  clear hu
  induction hu' with
  | refl => simp [initState]
  | tail hsteps hstep ih =>
    rcases step_conns_shape cfg _ _ hstep with h | ⟨n, w, h⟩ | ⟨n, h⟩
    · rw [h]; exact ih
    · rw [h]; exact keys_mSet_nodup n w _ ih
    · rw [h]; exact keys_mDel_nodup n _ ih

/-- C1: registering a connection for a valid tenant makes lookup return
exactly that handle; any previously registered distinct handle has had its
listeners detached (listener count zero) and has been closed with close code
1000 and reason "Replaced by new connection" in the resulting state; and in
every reachable state the tenant-to-connection map binds each tenant at most
once, so at most one connection is registered per tenant at any instant. -/
theorem claim_C1_one_connection_per_tenant (cfg : Cfg) (cur : Int) (ws : ConnId) (a : AuthVal)
    (n : Nat) (s s' : RegistryState)
    (hv : validateAuth a = some n) (hs' : s' = addConnection cur ws a s) :
    getConnectionByAuth n s' = some ws
    ∧ (∀ old, mGet n s.connectionsByAuth = some old → old ≠ ws →
        (infoOf old s').listeners = 0
        ∧ ((infoOf old s).closedWith = none →
            (infoOf old s').closedWith = some (1000, "Replaced by new connection")))
    ∧ (∀ u, Reachable cfg u → (u.connectionsByAuth.map Prod.fst).Nodup) := by
  subst hs'
  refine ⟨?_, ?_, fun u hu => reachable_conns_nodup cfg u hu⟩
  · unfold getConnectionByAuth
    rw [(addConnection_frame cur ws a n s hv).1]
    exact mGet_mSet_self n ws s.connectionsByAuth
  · intro old hold hne
    have hio := addConnection_infoOf_ne cur ws old a n s hv hne
    obtain ⟨hl, hstamp, hcw⟩ := replaceDuplicate_old ws old n s hold hne
    rw [hio]
    exact ⟨hl, hcw⟩

/-- C1 witness: tenant 0 connects twice with distinct handles; lookup yields
the newer handle, the older one is detached and closed as replaced. -/
theorem claim_C1_one_connection_per_tenant_witness :
    validateAuth (.intVal 0) = some 0
    ∧ getConnectionByAuth 0
        (addConnection 0 2 (.intVal 0) (addConnection 0 1 (.intVal 0) initState)) = some 2
    ∧ (infoOf 1 (addConnection 0 2 (.intVal 0)
        (addConnection 0 1 (.intVal 0) initState))).listeners = 0
    ∧ (infoOf 1 (addConnection 0 2 (.intVal 0)
        (addConnection 0 1 (.intVal 0) initState))).closedWith
        = some (1000, "Replaced by new connection") := by
  have h := claim_C1_one_connection_per_tenant ⟨true⟩ 0 2 (.intVal 0) 0
    (addConnection 0 1 (.intVal 0) initState) _ (by decide) rfl
  refine ⟨by decide, h.1, ?_, ?_⟩
  · exact (h.2.1 1 (by decide) (by decide)).1
  · exact (h.2.1 1 (by decide) (by decide)).2 (by decide)

theorem graceFire_queues_current (cfg : Cfg) (cur : Int) (t : TimerId) (n : Nat)
    (s : RegistryState) (hcur : (n : Int) = cur) :
    (graceFire cfg cur t n s).messageQueues = []
    ∧ ∀ r q, r ∈ s.messageQueues.map Prod.snd → mGet r s.queueArena = some q →
        mGet r (graceFire cfg cur t n s).queueArena = some q.doClose := by
  simp only [graceFire]
  rw [if_pos hcur]
  obtain ⟨tm, ra, pr, hsr⟩ := startRecovery_shape cfg n t
    (closeAllMessageQueues
      { s with pendingTimers := s.pendingTimers.filter (fun p => p != (t, n)) })
  rw [hsr]
  constructor
  · rw [closeAll_shape]
  · intro r q hr hq
    exact closeAll_arena_closed _ r q hr hq

theorem graceFire_queues_noncurrent (cfg : Cfg) (cur : Int) (t : TimerId) (n : Nat)
    (s : RegistryState) (hcur : (n : Int) ≠ cur) :
    (graceFire cfg cur t n s).messageQueues = s.messageQueues
    ∧ (graceFire cfg cur t n s).queueArena = s.queueArena := by
  simp only [graceFire]
  rw [if_neg hcur]
  obtain ⟨tm, ra, pr, hsr⟩ := startRecovery_shape cfg n t
    { s with pendingTimers := s.pendingTimers.filter (fun p => p != (t, n)) }
  rw [hsr]
  exact ⟨rfl, rfl⟩

/-- C4: when the grace timer of tenant n fires, all message queues are
closed and the queue map cleared exactly when n equals the current tenant at
the moment of expiry; otherwise the queue map and every queue object are
left untouched. -/
theorem claim_C4_expiry_queue_policy (cfg : Cfg) (cur : Int) (t : TimerId) (n : Nat)
    (s s' : RegistryState) (_hp : (t, n) ∈ s.pendingTimers)
    (hs' : s' = graceFire cfg cur t n s) :
    ((n : Int) = cur →
      s'.messageQueues = []
      ∧ ∀ r q, r ∈ s.messageQueues.map Prod.snd → mGet r s.queueArena = some q →
          mGet r s'.queueArena = some q.doClose)
    ∧ ((n : Int) ≠ cur → s'.messageQueues = s.messageQueues ∧ s'.queueArena = s.queueArena) := by
  subst hs'
  exact ⟨fun hcur => graceFire_queues_current cfg cur t n s hcur,
    fun hcur => graceFire_queues_noncurrent cfg cur t n s hcur⟩

/-- C4 witness: a pending grace timer for tenant 0 fires while tenant 0 is
current and request r1 has a queue; the queue map is cleared and the queue
object closed. -/
theorem claim_C4_expiry_queue_policy_witness :
    ((0 : TimerId), (0 : Nat)) ∈ (createMessageQueue "r1"
        (removeConnection false 1 (addConnection 1 1 (.intVal 0) initState))).pendingTimers
    ∧ (graceFire ⟨true⟩ 0 0 0 (createMessageQueue "r1"
        (removeConnection false 1 (addConnection 1 1 (.intVal 0) initState)))).messageQueues = []
    ∧ mGet 0 (graceFire ⟨true⟩ 0 0 0 (createMessageQueue "r1"
        (removeConnection false 1 (addConnection 1 1 (.intVal 0) initState)))).queueArena
        = some ⟨[], true⟩ := by
  have h := claim_C4_expiry_queue_policy ⟨true⟩ 0 0 0
    (createMessageQueue "r1" (removeConnection false 1 (addConnection 1 1 (.intVal 0) initState)))
    _ (by decide) rfl
  refine ⟨by decide, (h.1 (by decide)).1, ?_⟩
  exact (h.1 (by decide)).2 0 ⟨[], false⟩ (by decide) (by decide)

/-- C7 counterexample: tenant 0 is the current tenant (cur = 0), a message
queue for request r1 exists, and addConnection registers a connection for
tenant 0 — yet, because no grace timer is outstanding for tenant 0, the
queue map is untouched and the queue object stays open, contradicting the
claim that the queues are force-closed whenever a current-tenant
registration happens while queues exist. -/
theorem claim_C7_counterexample :
    (((0 : Nat) : Int) = (0 : Int)
      ∧ (createMessageQueue "r1" initState).messageQueues ≠ []
      ∧ mGet 0 (createMessageQueue "r1" initState).reconnectGraceTimers = none)
    ∧ getConnectionByAuth 0 (addConnection 0 1 (.intVal 0) (createMessageQueue "r1" initState))
        = some 1
    ∧ (addConnection 0 1 (.intVal 0) (createMessageQueue "r1" initState)).messageQueues
        = [("r1", 0)]
    ∧ mGet 0 (addConnection 0 1 (.intVal 0) (createMessageQueue "r1" initState)).queueArena
        = some ⟨[], false⟩ := by
  exact ⟨⟨rfl, by decide, by decide⟩, by decide, by decide, by decide⟩

/-- C7 as amended: when addConnection registers a connection for the current
tenant, message queues exist, AND an outstanding grace timer for that tenant
is being cancelled by this registration (the tenant is reconnecting), all
message queues are force-closed and the map cleared. -/
theorem claim_C7_reconnect_clears_queues (cur : Int) (ws : ConnId) (n : Nat) (t : TimerId)
    (s s' : RegistryState)
    (ht : mGet n s.reconnectGraceTimers = some t) (hcur : (n : Int) = cur)
    (hne : s.messageQueues ≠ []) (hs' : s' = addConnection cur ws (.intVal n) s) :
    s'.messageQueues = []
    ∧ ∀ r q, r ∈ s.messageQueues.map Prod.snd → mGet r s.queueArena = some q →
        mGet r s'.queueArena = some q.doClose := by
  subst hs'
  have hv : validateAuth (.intVal (n : Int)) = some n := by simp [validateAuth]
  rw [addConnection_valid_shape cur ws _ n s hv]
  obtain ⟨ci1, h1⟩ := replaceDuplicate_eq ws n s
  have ht' : mGet n (replaceDuplicate ws n s).reconnectGraceTimers = some t := by
    rw [h1]; exact ht
  have hne' : (replaceDuplicate ws n s).messageQueues ≠ [] := by
    rw [h1]; exact hne
  have hq := clearGrace_queues_closed cur n t (replaceDuplicate ws n s) ht' hcur hne'
  constructor
  · simpa [attachHandlers] using hq.1
  · intro r q hr hqq
    have hr' : r ∈ (replaceDuplicate ws n s).messageQueues.map Prod.snd := by
      rw [h1]; exact hr
    have hqq' : mGet r (replaceDuplicate ws n s).queueArena = some q := by
      rw [h1]; exact hqq
    have := hq.2 r q hr' hqq'
    simpa [attachHandlers] using this

/-- C7 amended witness: tenant 0 loses its connection (grace timer started),
request r1 still has a queue, and tenant 0 reconnects while current: queues
are closed and the map cleared. -/
theorem claim_C7_reconnect_clears_queues_witness :
    mGet 0 (createMessageQueue "r1"
        (removeConnection false 1 (addConnection 0 1 (.intVal 0) initState))).reconnectGraceTimers
      = some 0
    ∧ (addConnection 0 2 (.intVal 0) (createMessageQueue "r1"
        (removeConnection false 1 (addConnection 0 1 (.intVal 0) initState)))).messageQueues = []
    ∧ mGet 0 (addConnection 0 2 (.intVal 0) (createMessageQueue "r1"
        (removeConnection false 1 (addConnection 0 1 (.intVal 0) initState)))).queueArena
      = some ⟨[], true⟩ := by
  have h := claim_C7_reconnect_clears_queues 0 2 0 0
    (createMessageQueue "r1" (removeConnection false 1 (addConnection 0 1 (.intVal 0) initState)))
    _ (by decide) (by decide) (by decide) rfl
  exact ⟨by decide, h.1, h.2 0 ⟨[], false⟩ (by decide) (by decide)⟩

/-- C8: a registration whose authIndex is undefined, negative, or not an
integer closes the offered connection with protocol close code 1008 (reason
"Invalid authIndex") and mutates nothing: every map, timer set, queue and
counter of the registry is unchanged, no listeners are attached and no
authIndex is stamped, and the record of every other connection is
untouched. -/
theorem claim_C8_invalid_rejected (cur : Int) (ws : ConnId) (a : AuthVal)
    (s s' : RegistryState) (h : validateAuth a = none) (hs' : s' = addConnection cur ws a s) :
    s'.connectionsByAuth = s.connectionsByAuth
    ∧ s'.messageQueues = s.messageQueues
    ∧ s'.queueArena = s.queueArena
    ∧ s'.nextQueueRef = s.nextQueueRef
    ∧ s'.reconnectGraceTimers = s.reconnectGraceTimers
    ∧ s'.pendingTimers = s.pendingTimers
    ∧ s'.pendingRecovery = s.pendingRecovery
    ∧ s'.reconnectingAccounts = s.reconnectingAccounts
    ∧ s'.nextTimerId = s.nextTimerId
    ∧ (infoOf ws s').listeners = (infoOf ws s).listeners
    ∧ (infoOf ws s').authStamp = (infoOf ws s).authStamp
    ∧ ((infoOf ws s).closedWith = none →
        (infoOf ws s').closedWith = some (1008, "Invalid authIndex"))
    ∧ (∀ w, w ≠ ws → infoOf w s' = infoOf w s) := by
  subst hs'
  rw [addConnection_invalid_shape cur ws a s h]
  rcases hc : (infoOf ws s).closedWith with _ | p
  · rw [closeConn_fresh _ _ _ _ hc]
    refine ⟨rfl, rfl, rfl, rfl, rfl, rfl, rfl, rfl, rfl, ?_, ?_, ?_, ?_⟩
    · simp [infoOf, mGet_mSet_self]
    · simp [infoOf, mGet_mSet_self]
    · intro _
      simp [infoOf, mGet_mSet_self]
    · intro w hw
      simp [infoOf, mGet_mSet_ne ws w _ _ (Ne.symm hw)]
  · rw [closeConn_already _ _ _ _ (by simp [hc])]
    refine ⟨rfl, rfl, rfl, rfl, rfl, rfl, rfl, rfl, rfl, rfl, rfl, ?_, fun w _ => rfl⟩
    intro hnone
    exact absurd hnone (by simp)

/-- C8 witness: an undefined authIndex on a fresh registry: the offered
connection is closed with 1008 and the registry is untouched. -/
theorem claim_C8_invalid_rejected_witness :
    validateAuth .undef = none
    ∧ (addConnection 0 5 .undef initState).connectionsByAuth = initState.connectionsByAuth
    ∧ (infoOf 5 (addConnection 0 5 .undef initState)).closedWith
        = some (1008, "Invalid authIndex") := by
  have h := claim_C8_invalid_rejected 0 5 .undef initState _ (by decide) rfl
  exact ⟨by decide, h.1, h.2.2.2.2.2.2.2.2.2.2.2.1 (by decide)⟩

/-- C10: calling addConnection again with the very same connection instance
already registered for its tenant closes nothing and replaces nothing (the
close record and lookup result are unchanged), but attaches a second handler
set: the listener count increases by one, so a message event runs the
incoming-message routing once per registration and a close event runs the
teardown once per registration; concretely, after a double registration an
inbound chunk frame for request r1 is enqueued twice. -/
theorem claim_C10_same_instance_rereg (cur : Int) (ws : ConnId) (n : Nat)
    (s s' : RegistryState)
    (_hconn : mGet n s.connectionsByAuth = some ws)
    (hs' : s' = addConnection cur ws (.intVal n) s) :
    (infoOf ws s').closedWith = (infoOf ws s).closedWith
    ∧ getConnectionByAuth n s' = some ws
    ∧ (infoOf ws s').listeners = (infoOf ws s).listeners + 1
    ∧ (∀ raw, deliverMessage ws raw s'
        = Nat.iterate (handleIncomingMessage raw) ((infoOf ws s).listeners + 1) s')
    ∧ (∀ g, deliverClose g ws s'
        = Nat.iterate (removeConnection g ws) ((infoOf ws s).listeners + 1) s')
    ∧ mGet 0 (deliverMessage 7 (some ⟨some "r1", "chunk", "d"⟩)
          (addConnection 1 7 (.intVal 0) (addConnection 1 7 (.intVal 0)
            (createMessageQueue "r1" initState)))).queueArena
        = some ⟨[.msg ⟨some "r1", "chunk", "d"⟩, .msg ⟨some "r1", "chunk", "d"⟩], false⟩ := by
  have hv : validateAuth (.intVal (n : Int)) = some n := by simp [validateAuth]
  subst hs'
  have hinfo := addConnection_infoOf_ws cur ws (.intVal n) n s hv
  refine ⟨?_, ?_, ?_, ?_, ?_, by decide⟩
  · rw [hinfo]
  · unfold getConnectionByAuth
    rw [(addConnection_frame cur ws (.intVal n) n s hv).1]
    exact mGet_mSet_self n ws s.connectionsByAuth
  · rw [hinfo]
  · intro raw
    unfold deliverMessage
    rw [hinfo]
  · intro g
    unfold deliverClose
    rw [hinfo]

/-- C10 witness: registering the same handle twice for tenant 0 leaves it
open and bumps its handler-set count from one to two. -/
theorem claim_C10_same_instance_rereg_witness :
    mGet 0 (addConnection 1 7 (.intVal 0)
        (createMessageQueue "r1" initState)).connectionsByAuth = some 7
    ∧ (infoOf 7 (addConnection 1 7 (.intVal 0) (addConnection 1 7 (.intVal 0)
        (createMessageQueue "r1" initState)))).listeners
      = (infoOf 7 (addConnection 1 7 (.intVal 0)
          (createMessageQueue "r1" initState))).listeners + 1 := by
  refine ⟨by decide, ?_⟩
  exact (claim_C10_same_instance_rereg 1 7 0
    (addConnection 1 7 (.intVal 0) (createMessageQueue "r1" initState)) _
    (by decide) rfl).2.2.1

theorem step_preserves_cancelled (cfg : Cfg) (t0 : TimerId) (s s' : RegistryState)
    (h : Step cfg s s') (hp : ∀ p ∈ s.pendingTimers, p.1 ≠ t0) (hlt : t0 < s.nextTimerId) :
    (∀ p ∈ s'.pendingTimers, p.1 ≠ t0) ∧ t0 < s'.nextTimerId := by
  cases h with
  | add cur ws a =>
    rcases hv : validateAuth a with _ | n
    · rw [addConnection_invalid_shape cur ws a s hv]
      obtain ⟨ci, hc⟩ := closeConn_eq ws 1008 "Invalid authIndex" s
      rw [hc]
      exact ⟨hp, hlt⟩
    · refine ⟨fun p hpp => hp p (addConnection_pendingTimers_subset cur ws a n s hv p hpp), ?_⟩
      rw [(addConnection_frame cur ws a n s hv).2.2.2.2.1]
      exact hlt
  | wsClose g ws =>
    rcases removeConnection_spec g ws s with heq | ⟨n, tm, pt, ntid, _, heq, hsub, hle⟩
    · rw [heq]
      exact ⟨hp, hlt⟩
    · rw [heq]
      refine ⟨?_, lt_of_lt_of_le hlt hle⟩
      intro p hpp
      rcases hsub p hpp with hmem | hid
      · exact hp p hmem
      · rw [hid]
        exact ne_of_gt hlt
  | explicitClose n =>
    rcases closeByAuth_spec n s with heq | ⟨ci, tm, pt, heq, hsub⟩
    · rw [heq]
      exact ⟨hp, hlt⟩
    · rw [heq]
      exact ⟨fun p hpp => hp p (hsub p hpp), hlt⟩
  | createQ rid =>
    rw [createMessageQueue_shape]
    exact ⟨hp, hlt⟩
  | removeQ rid =>
    obtain ⟨mq, qa, heq⟩ := removeMessageQueue_shape rid s
    rw [heq]
    exact ⟨hp, hlt⟩
  | closeAllQ =>
    rw [closeAll_shape]
    exact ⟨hp, hlt⟩
  | msg raw =>
    obtain ⟨qa, heq⟩ := handleIncoming_shape raw s
    rw [heq]
    exact ⟨hp, hlt⟩
  | fire cur t n hmem =>
    obtain ⟨mq, qa, tm, ra, pr, heq⟩ := graceFire_spec cfg cur t n s
    rw [heq]
    refine ⟨?_, hlt⟩
    intro p hpp
    exact hp p (List.mem_filter.mp hpp).1
  | recDone o n t hmem =>
    rw [recoveryComplete_shape]
    exact ⟨hp, hlt⟩

/-- C5: a registration for tenant n that lands while the grace timer t of n
is outstanding cancels the timer (the map entry is deleted and t leaves the
pending set), returns the tenant to CONNECTED (lookup finds the new
connection), and t can never fire afterwards: in every state reachable from
the registration no pending timer carries the id t, so the loss-path
callback of t — the recovery invocation and the force-close of queues on
loss — never runs. -/
theorem claim_C5_reconnect_cancels_grace (cfg : Cfg) (cur : Int) (ws : ConnId) (a : AuthVal)
    (n : Nat) (t : TimerId) (s s' : RegistryState)
    (hv : validateAuth a = some n) (ht : mGet n s.reconnectGraceTimers = some t)
    (hfresh : t < s.nextTimerId) (hs' : s' = addConnection cur ws a s) :
    mGet n s'.reconnectGraceTimers = none
    ∧ getConnectionByAuth n s' = some ws
    ∧ (∀ u, Relation.ReflTransGen (Step cfg) s' u → ∀ p ∈ u.pendingTimers, p.1 ≠ t) := by
  subst hs'
  obtain ⟨hconns, htm, hpr, hra, hnt, hnq⟩ := addConnection_frame cur ws a n s hv
  refine ⟨?_, ?_, ?_⟩
  · rw [htm]
    exact mGet_mDel_self n _
  · unfold getConnectionByAuth
    rw [hconns]
    exact mGet_mSet_self n ws s.connectionsByAuth
  · have hbase1 : ∀ p ∈ (addConnection cur ws a s).pendingTimers, p.1 ≠ t := by
      rw [addConnection_pendingTimers_of_timer cur ws a n t s hv ht]
      intro p hpp
      have hb := (List.mem_filter.mp hpp).2
      simpa using hb
    have hbase2 : t < (addConnection cur ws a s).nextTimerId := by
      rw [hnt]
      exact hfresh
    intro u hu
    have hind : (∀ p ∈ u.pendingTimers, p.1 ≠ t) ∧ t < u.nextTimerId := by
      induction hu with
      | refl => exact ⟨hbase1, hbase2⟩
      | tail hsteps hstep ih => exact step_preserves_cancelled cfg t _ _ hstep ih.1 ih.2
    exact hind.1

/-- C5 witness: tenant 0 disconnects (timer 0 scheduled), then reconnects
before expiry: the timer entry is gone and no pending timer carries id 0. -/
theorem claim_C5_reconnect_cancels_grace_witness :
    mGet 0 (removeConnection false 1
        (addConnection 1 1 (.intVal 0) initState)).reconnectGraceTimers = some 0
    ∧ mGet 0 (addConnection 1 2 (.intVal 0) (removeConnection false 1
        (addConnection 1 1 (.intVal 0) initState))).reconnectGraceTimers = none
    ∧ (∀ p ∈ (addConnection 1 2 (.intVal 0) (removeConnection false 1
        (addConnection 1 1 (.intVal 0) initState))).pendingTimers, p.1 ≠ 0) := by
  have h := claim_C5_reconnect_cancels_grace ⟨true⟩ 1 2 (.intVal 0) 0 0
    (removeConnection false 1 (addConnection 1 1 (.intVal 0) initState)) _
    (by decide) (by decide) (by decide) rfl
  exact ⟨by decide, h.1, h.2.2 _ Relation.ReflTransGen.refl⟩

theorem graceFire_recovery_spec (cfg : Cfg) (cur : Int) (t : TimerId) (n : Nat)
    (s : RegistryState) :
    (¬ (cfg.hasCallback = true ∧ n ∉ s.reconnectingAccounts) →
      (graceFire cfg cur t n s).reconnectingAccounts = s.reconnectingAccounts
      ∧ (graceFire cfg cur t n s).pendingRecovery = s.pendingRecovery)
    ∧ ((cfg.hasCallback = true ∧ n ∉ s.reconnectingAccounts) →
      (graceFire cfg cur t n s).reconnectingAccounts = n :: s.reconnectingAccounts
      ∧ (graceFire cfg cur t n s).pendingRecovery = (n, t) :: s.pendingRecovery) := by
  have hshape : ∀ X : RegistryState,
      X.reconnectingAccounts = s.reconnectingAccounts →
      X.pendingRecovery = s.pendingRecovery →
      ((¬ (cfg.hasCallback = true ∧ n ∉ s.reconnectingAccounts) →
        (startRecoveryOrFinish cfg n t X).reconnectingAccounts = s.reconnectingAccounts
        ∧ (startRecoveryOrFinish cfg n t X).pendingRecovery = s.pendingRecovery)
       ∧ ((cfg.hasCallback = true ∧ n ∉ s.reconnectingAccounts) →
        (startRecoveryOrFinish cfg n t X).reconnectingAccounts = n :: s.reconnectingAccounts
        ∧ (startRecoveryOrFinish cfg n t X).pendingRecovery = (n, t) :: s.pendingRecovery)) := by
    intro X h1 h2
    constructor
    · intro hg
      have hg' : ¬ (cfg.hasCallback = true ∧ n ∉ X.reconnectingAccounts) := by
        rw [h1]
        exact hg
      rw [startRecovery_blocked cfg n t X hg']
      exact ⟨h1, h2⟩
    · intro hg
      have hg' : cfg.hasCallback = true ∧ n ∉ X.reconnectingAccounts := by
        rw [h1]
        exact hg
      rw [startRecovery_go cfg n t X hg']
      constructor
      · show n :: X.reconnectingAccounts = n :: s.reconnectingAccounts
        rw [h1]
      · show (n, t) :: X.pendingRecovery = (n, t) :: s.pendingRecovery
        rw [h2]
  simp only [graceFire]
  by_cases hcur : (n : Int) = cur
  · rw [if_pos hcur]
    exact hshape _ (by rw [closeAll_shape]) (by rw [closeAll_shape])
  · rw [if_neg hcur]
    exact hshape _ rfl rfl

theorem recoveryComplete_clears (o : RecoveryOutcome) (n : Nat) (t : TimerId)
    (s : RegistryState) :
    n ∉ (recoveryComplete o n t s).reconnectingAccounts
    ∧ (n, t) ∉ (recoveryComplete o n t s).pendingRecovery := by
  constructor
  · intro hmem
    have hm := List.mem_filter.mp hmem
    simp at hm
  · intro hmem
    have hm := List.mem_filter.mp hmem
    simp at hm

theorem step_preserves_recovery_inv (cfg : Cfg) (s s' : RegistryState) (h : Step cfg s s')
    (hinv : ∀ m : Nat,
      (m ∈ s.reconnectingAccounts ↔ ∃ t', (m, t') ∈ s.pendingRecovery)
      ∧ (∀ t1 t2, (m, t1) ∈ s.pendingRecovery → (m, t2) ∈ s.pendingRecovery → t1 = t2)) :
    ∀ m : Nat,
      (m ∈ s'.reconnectingAccounts ↔ ∃ t', (m, t') ∈ s'.pendingRecovery)
      ∧ (∀ t1 t2, (m, t1) ∈ s'.pendingRecovery → (m, t2) ∈ s'.pendingRecovery → t1 = t2) := by
  cases h with
  | add cur ws a =>
    rcases hv : validateAuth a with _ | n
    · rw [addConnection_invalid_shape cur ws a s hv]
      obtain ⟨ci, hc⟩ := closeConn_eq ws 1008 "Invalid authIndex" s
      rw [hc]
      exact hinv
    · obtain ⟨_, _, hpr, hra, _, _⟩ := addConnection_frame cur ws a n s hv
      intro m
      rw [hpr, hra]
      exact hinv m
  | wsClose g ws =>
    rcases removeConnection_spec g ws s with heq | ⟨n, tm, pt, ntid, _, heq, _, _⟩ <;>
      (rw [heq]; exact hinv)
  | explicitClose n =>
    rcases closeByAuth_spec n s with heq | ⟨ci, tm, pt, heq, _⟩ <;> (rw [heq]; exact hinv)
  | createQ rid =>
    rw [createMessageQueue_shape]
    exact hinv
  | removeQ rid =>
    obtain ⟨mq, qa, heq⟩ := removeMessageQueue_shape rid s
    rw [heq]
    exact hinv
  | closeAllQ =>
    rw [closeAll_shape]
    exact hinv
  | msg raw =>
    obtain ⟨qa, heq⟩ := handleIncoming_shape raw s
    rw [heq]
    exact hinv
  | fire cur t n hmem =>
    by_cases hg : cfg.hasCallback = true ∧ n ∉ s.reconnectingAccounts
    · obtain ⟨hra, hpr⟩ := (graceFire_recovery_spec cfg cur t n s).2 hg
      intro m
      rw [hra, hpr]
      by_cases hmn : m = n
      · subst hmn
        refine ⟨⟨fun _ => ⟨t, List.mem_cons_self _ _⟩, fun _ => List.mem_cons_self _ _⟩, ?_⟩
        intro t1 t2 h1 h2
        rcases List.mem_cons.mp h1 with h1' | h1'
        · rcases List.mem_cons.mp h2 with h2' | h2'
          · rw [Prod.mk.injEq] at h1' h2'
            exact h1'.2.trans h2'.2.symm
          · exact absurd ((hinv m).1.mpr ⟨t2, h2'⟩) hg.2
        · exact absurd ((hinv m).1.mpr ⟨t1, h1'⟩) hg.2
      · constructor
        · constructor
          · intro hm
            rcases List.mem_cons.mp hm with h' | h'
            · exact absurd h' hmn
            · obtain ⟨t', ht'⟩ := (hinv m).1.mp h'
              exact ⟨t', List.mem_cons_of_mem _ ht'⟩
          · rintro ⟨t', ht'⟩
            rcases List.mem_cons.mp ht' with h' | h'
            · rw [Prod.mk.injEq] at h'
              exact absurd h'.1 hmn
            · exact List.mem_cons_of_mem _ ((hinv m).1.mpr ⟨t', h'⟩)
        · intro t1 t2 h1 h2
          have e1 : (m, t1) ∈ s.pendingRecovery := by
            rcases List.mem_cons.mp h1 with h' | h'
            · rw [Prod.mk.injEq] at h'
              exact absurd h'.1 hmn
            · exact h'
          have e2 : (m, t2) ∈ s.pendingRecovery := by
            rcases List.mem_cons.mp h2 with h' | h'
            · rw [Prod.mk.injEq] at h'
              exact absurd h'.1 hmn
            · exact h'
          exact (hinv m).2 t1 t2 e1 e2
    · obtain ⟨hra, hpr⟩ := (graceFire_recovery_spec cfg cur t n s).1 hg
      intro m
      rw [hra, hpr]
      exact hinv m
  | recDone o n t _ hmem =>
    have hra : (recoveryComplete o n t s).reconnectingAccounts
        = s.reconnectingAccounts.filter (fun m => m != n) := rfl
    have hpr : (recoveryComplete o n t s).pendingRecovery
        = s.pendingRecovery.filter (fun p => p != (n, t)) := rfl
    intro m
    rw [hra, hpr]
    by_cases hmn : m = n
    · subst hmn
      constructor
      · constructor
        · intro hm
          have := (List.mem_filter.mp hm).2
          simp at this
        · rintro ⟨t', ht'⟩
          have hmem' := List.mem_filter.mp ht'
          have hne : (m, t') ≠ (m, t) := by simpa using hmem'.2
          have heq : t' = t := (hinv m).2 t' t hmem'.1 hmem
          exact absurd (by rw [heq]) hne
      · intro t1 t2 h1 h2
        exact (hinv m).2 t1 t2 (List.mem_filter.mp h1).1 (List.mem_filter.mp h2).1
    · constructor
      · constructor
        · intro hm
          obtain ⟨t', ht'⟩ := (hinv m).1.mp (List.mem_filter.mp hm).1
          refine ⟨t', List.mem_filter.mpr ⟨ht', ?_⟩⟩
          simp only [bne_iff_ne, ne_eq, Prod.mk.injEq, not_and]
          intro hc
          exact absurd hc hmn
        · rintro ⟨t', ht'⟩
          have h1 := (List.mem_filter.mp ht').1
          have hm := (hinv m).1.mpr ⟨t', h1⟩
          refine List.mem_filter.mpr ⟨hm, ?_⟩
          simpa using hmn
      · intro t1 t2 h1 h2
        exact (hinv m).2 t1 t2 (List.mem_filter.mp h1).1 (List.mem_filter.mp h2).1

theorem reachable_recovery_inv (cfg : Cfg) (u : RegistryState) (hu : Reachable cfg u) :
    ∀ m : Nat,
      (m ∈ u.reconnectingAccounts ↔ ∃ t', (m, t') ∈ u.pendingRecovery)
      ∧ (∀ t1 t2, (m, t1) ∈ u.pendingRecovery → (m, t2) ∈ u.pendingRecovery → t1 = t2) := by
  have hu' : Relation.ReflTransGen (Step cfg) initState u := hu
  clear hu
  induction hu' with
  | refl =>
    intro m
    refine ⟨⟨fun h => ?_, fun h => ?_⟩, fun t1 t2 h1 h2 => ?_⟩
    · cases h
    · obtain ⟨t', ht'⟩ := h
      cases ht'
    · cases h1
  | tail hsteps hstep ih => exact step_preserves_recovery_inv cfg _ _ hstep ih

/-- C6: at grace expiry the recovery callback is invoked only when the
tenant is not already marked reconnecting (when it is, neither the flag set
nor the in-flight set changes); when invoked, the flag is set and the
attempt recorded in the same atomic step; completion of the attempt — with
any outcome: success, failure, or the fixed 55000 ms timeout of the race,
none of which propagates (all outcomes produce the same state) — removes the
flag and the in-flight record unconditionally, freeing a later loss event to
start a new attempt; and in every reachable state a tenant has at most one
recovery attempt in flight. -/
theorem claim_C6_single_recovery_in_flight (cfg : Cfg) (cur : Int) (t t' : TimerId) (n : Nat)
    (s : RegistryState) (o : RecoveryOutcome) :
    (n ∈ s.reconnectingAccounts →
      (graceFire cfg cur t n s).reconnectingAccounts = s.reconnectingAccounts
      ∧ (graceFire cfg cur t n s).pendingRecovery = s.pendingRecovery)
    ∧ (cfg.hasCallback = true → n ∉ s.reconnectingAccounts →
      (graceFire cfg cur t n s).reconnectingAccounts = n :: s.reconnectingAccounts
      ∧ (graceFire cfg cur t n s).pendingRecovery = (n, t) :: s.pendingRecovery)
    ∧ (n ∉ (recoveryComplete o n t' s).reconnectingAccounts
      ∧ (n, t') ∉ (recoveryComplete o n t' s).pendingRecovery)
    ∧ lightweightReconnectTimeoutMs = 55000
    ∧ (Reachable cfg s →
        ∀ m t1 t2, (m, t1) ∈ s.pendingRecovery → (m, t2) ∈ s.pendingRecovery → t1 = t2) := by
  refine ⟨?_, ?_, recoveryComplete_clears o n t' s, rfl, ?_⟩
  · intro hmem
    exact (graceFire_recovery_spec cfg cur t n s).1 (by simp [hmem])
  · intro hcb hnm
    exact (graceFire_recovery_spec cfg cur t n s).2 ⟨hcb, hnm⟩
  · intro hreach m t1 t2 h1 h2
    exact (reachable_recovery_inv cfg s hreach m).2 t1 t2 h1 h2

/-- C6 witness: on a fresh registry with a callback configured, firing the
grace timer of tenant 0 marks it reconnecting and records the attempt;
completing the attempt with the timeout outcome clears both. -/
theorem claim_C6_single_recovery_in_flight_witness :
    lightweightReconnectTimeoutMs = 55000
    ∧ (0 : Nat) ∉ (initState : RegistryState).reconnectingAccounts
    ∧ (graceFire ⟨true⟩ 1 0 0 initState).reconnectingAccounts
        = 0 :: initState.reconnectingAccounts
    ∧ (0 : Nat) ∉ (recoveryComplete .timedOut 0 0 initState).reconnectingAccounts := by
  have h := claim_C6_single_recovery_in_flight ⟨true⟩ 1 0 0 0 initState .timedOut
  exact ⟨h.2.2.2.1, by decide, (h.2.1 rfl (by decide)).1, h.2.2.1.1⟩

/-- C9 refutation (code bug): a reachable schedule in which the stated
timer-map invariant fails.  Tenant 0 connects (handle 1) and disconnects:
grace timer 0 is scheduled.  Timer 0 fires while tenant 0 is not current and
the recovery callback is invoked, suspending the grace callback at its
await.  During the await tenant 0 reconnects (handle 2, deleting the timer
map entry) and disconnects again, scheduling grace timer 1 with map entry
0 -> 1.  The suspended callback of the superseded timer 0 then completes and
— source line 193 — unconditionally deletes the map entry of tenant 0,
which now belongs to timer 1.  In the resulting state tenant 0 has no
registered connection and its most recent loss is not finalized (grace timer
1 is still scheduled and its callback has not even started), yet no grace
timer map entry exists for tenant 0 — the if-and-only-if of the claim is
violated.  Consequently a later registration for tenant 0 cannot cancel
timer 1: the stale timer remains pending while tenant 0 is connected. -/
theorem claim_C9_timer_invariant_bug :
    ((0 : TimerId), (0 : Nat)) ∈ (removeConnection false 1
        (addConnection 1 1 (.intVal 0) initState)).pendingTimers
    ∧ ((0 : Nat), (0 : TimerId)) ∈ (removeConnection false 2 (addConnection 1 2 (.intVal 0)
        (graceFire ⟨true⟩ 1 0 0 (removeConnection false 1
          (addConnection 1 1 (.intVal 0) initState))))).pendingRecovery
    ∧ (let sF := recoveryComplete .success 0 0 (removeConnection false 2
        (addConnection 1 2 (.intVal 0) (graceFire ⟨true⟩ 1 0 0 (removeConnection false 1
          (addConnection 1 1 (.intVal 0) initState)))));
      mGet 0 sF.connectionsByAuth = none
      ∧ ((1 : TimerId), (0 : Nat)) ∈ sF.pendingTimers
      ∧ mGet 0 sF.reconnectGraceTimers = none
      ∧ Reachable ⟨true⟩ sF
      ∧ ((1 : TimerId), (0 : Nat)) ∈ (addConnection 1 3 (.intVal 0) sF).pendingTimers
      ∧ mGet 0 (addConnection 1 3 (.intVal 0) sF).connectionsByAuth = some 3) := by
  refine ⟨by decide, by decide, by decide, by decide, by decide, ?_, by decide, by decide⟩
  exact Relation.ReflTransGen.tail
    (Relation.ReflTransGen.tail
      (Relation.ReflTransGen.tail
        (Relation.ReflTransGen.tail
          (Relation.ReflTransGen.tail
            (Relation.ReflTransGen.tail Relation.ReflTransGen.refl
              (Step.add 1 1 (.intVal 0) initState))
            (Step.wsClose false 1 (addConnection 1 1 (.intVal 0) initState)))
          (Step.fire 1 0 0 (removeConnection false 1 (addConnection 1 1 (.intVal 0) initState))
            (by decide)))
        (Step.add 1 2 (.intVal 0) (graceFire ⟨true⟩ 1 0 0 (removeConnection false 1
          (addConnection 1 1 (.intVal 0) initState)))))
      (Step.wsClose false 2 (addConnection 1 2 (.intVal 0) (graceFire ⟨true⟩ 1 0 0
        (removeConnection false 1 (addConnection 1 1 (.intVal 0) initState))))))
    (Step.recDone .success 0 0 (removeConnection false 2 (addConnection 1 2 (.intVal 0)
      (graceFire ⟨true⟩ 1 0 0 (removeConnection false 1
        (addConnection 1 1 (.intVal 0) initState)))))
      (by decide))

end ConnReg
